import Mathlib

/-
Shallow embedding of the scrubber service (src/main.py): a FastAPI wrapper
that redacts PII from transcripts using the presidio analyzer and anonymizer.
The analyzer/anonymizer engine internals live in the presidio library, outside
this repository's sources; those parts are modelled from the spec where the
doc comments say so.  Confidence scores (Python floats in the range 0.0 to
1.0, all multiples of 0.01 in the configurations at hand) are embedded
exactly as naturals counting hundredths: 40 stands for 0.4 and 100 for 1.0.
Text offsets are character (code point) offsets, as in Python strings; text
is handled as a list of characters.
-/

/-- A candidate span or finalized analyzer result: character span
[start, stop) into the original text, entity label, and confidence score in
hundredths.  (The source calls stop the end offset; end is reserved here.) -/
structure Detection where
  start : Nat
  stop : Nat
  entity_label : String
  score : Nat
deriving DecidableEq, Repr

/-- Span length of a detection. -/
def spanLen (d : Detection) : Nat := d.stop - d.start

/-- The spans [start, stop) of two detections are disjoint. -/
def DisjP (a b : Detection) : Prop := a.stop ≤ b.start ∨ b.stop ≤ a.start

instance : DecidableRel DisjP := fun a b => by
  unfold DisjP
  exact inferInstance

/-- Boolean disjointness test on two detections. -/
def disjB (a b : Detection) : Bool := decide (DisjP a b)

/-- Boolean check that the detections in a list are pairwise disjoint. -/
def pairwiseDisjB : List Detection → Bool
  | [] => true
  | d :: rest => rest.all (disjB d) && pairwiseDisjB rest

theorem disjP_symm {a b : Detection} (h : DisjP a b) : DisjP b a := h.symm

theorem pairwiseDisjB_iff (l : List Detection) :
    pairwiseDisjB l = true ↔ List.Pairwise DisjP l := by
  induction l with
  | nil => simp [pairwiseDisjB]
  | cons d rest ih =>
    simp [pairwiseDisjB, disjB, List.all_eq_true, ih, List.pairwise_cons]

/-- Redaction operator policies (spec data model): replace with a fixed
literal, mask with a repeated character keeping some edge characters, hash
with a digest function, or remove the span. -/
inductive Operator where
  | replace (literal : String)
  | mask (maskChar : Char) (keepStart keepEnd : Nat)
  | hashOp (digest : String → String)
  | remove

/-- Modelled from the spec: apply a redaction operator to the matched span
(the anonymizer engine is part of the presidio library, not of src/). -/
def applyOperator (op : Operator) (span : List Char) : List Char :=
  match op with
  | .replace lit => lit.toList
  | .mask c keepStart keepEnd =>
    span.take keepStart ++
      List.replicate (span.length - keepStart - keepEnd) c ++
      span.drop (span.length - keepEnd)
  | .hashOp digest => (digest (String.mk span)).toList
  | .remove => []

/-- Error taxonomy of the engine (spec error-handling design): analysis
failure carrying the language and underlying cause, overlap-invariant
violation, and missing operator configuration. -/
inductive ScrubErr where
  | analysisError (lang cause : String)
  | overlapError
  | configError
deriving DecidableEq, Repr

/-- Modelled from the spec: operator lookup by entity label, falling back to
the DEFAULT operator, failing with a config error when neither exists. -/
def lookupOperator (ops : List (String × Operator)) (label : String) :
    Except ScrubErr Operator :=
  match ops.lookup label with
  | some op => .ok op
  | none =>
    match ops.lookup "DEFAULT" with
    | some op => .ok op
    | none => .error .configError

/-- Characters of positions [a, b) of the original text. -/
def pySlice (cs : List Char) (a b : Nat) : List Char := (cs.drop a).take (b - a)

/-- Modelled from the spec: the anonymizer rewriting walk.  It copies the
original text left to right, keeping verbatim text between detections and
replacing each detected span by its operator's output; pos is the current
position, and all offsets are taken against the original text, never against
the growing output. -/
def rewriteFrom (ops : List (String × Operator)) (cs : List Char) :
    Nat → List Detection → Except ScrubErr (List Char)
  | pos, [] => .ok (cs.drop pos)
  | pos, d :: rest => do
    let op ← lookupOperator ops d.entity_label
    let repl := applyOperator op (pySlice cs d.start d.stop)
    let tail ← rewriteFrom ops cs d.stop rest
    .ok (pySlice cs pos d.start ++ repl ++ tail)

/-- Order on detections by start offset ascending. -/
def startLE (a b : Detection) : Prop := a.start ≤ b.start

instance : DecidableRel startLE := fun a b => Nat.decLe a.start b.start

instance : IsTotal Detection startLE := ⟨fun a b => Nat.le_total a.start b.start⟩

instance : IsTrans Detection startLE := ⟨fun _ _ _ => Nat.le_trans⟩

/-- Sort detections by start offset ascending. -/
def sortByStart (l : List Detection) : List Detection := List.insertionSort startLE l

/-- Modelled from the spec: the anonymizer engine entry point (presidio
AnonymizerEngine.anonymize, not part of src/).  It validates the non-overlap
invariant, failing with an overlap error, then sorts the detections by start
and rewrites the text. -/
def anonymize (text : String) (dets : List Detection)
    (ops : List (String × Operator)) : Except ScrubErr String :=
  if pairwiseDisjB dets then
    (rewriteFrom ops text.toList 0 (sortByStart dets)).map (fun cs => String.mk cs)
  else .error .overlapError

theorem string_mk_toList : ∀ s : String, String.mk s.toList = s := fun ⟨_⟩ => rfl

/-- Modelled from the spec: a pattern recognizer definition.  The rule's
regular expression is embedded as its matching function, returning the
non-overlapping match spans of the pattern in the text (src/main.py builds
presidio PatternRecognizers from recognizers.json, configuration that is not
part of src/). -/
structure PatternRecognizer where
  supported_entity : String
  matcher : List Char → List (Nat × Nat)
  score : Nat
  context : List String

/-- Modelled from the spec: the fixed boost increment (in hundredths) added
to a candidate's base confidence when a context keyword is found nearby,
capped at 1.0 (that is, at 100). -/
def contextBoost : Nat := 35

/-- Modelled from the spec: the fixed character radius of the window
inspected around a match for context keywords. -/
def contextRadius : Nat := 35

/-- Lowercase every character of a list. -/
def lowerList (cs : List Char) : List Char := cs.map Char.toLower

/-- Whether pat occurs as a contiguous segment of cs. -/
def hasSeg (pat : List Char) : List Char → Bool
  | [] => pat.isEmpty
  | c :: rest => pat.isPrefixOf (c :: rest) || hasSeg pat rest

/-- Modelled from the spec: case-insensitive substring search for a context
keyword in the window of contextRadius characters around the span [s, e). -/
def keywordNear (cs : List Char) (s e : Nat) (kw : String) : Bool :=
  hasSeg (lowerList kw.toList) (lowerList (pySlice cs (s - contextRadius) (e + contextRadius)))

/-- Modelled from the spec: run one pattern recognizer over the text,
boosting the base confidence when any of its own context keywords or of the
caller-supplied context hints occurs near the match. -/
def runRecognizer (r : PatternRecognizer) (hints : List String) (cs : List Char) :
    List Detection :=
  (r.matcher cs).map (fun m =>
    let boosted :=
      if (r.context ++ hints).any (fun kw => keywordNear cs m.1 m.2 kw) then
        min 100 (r.score + contextBoost)
      else r.score
    { start := m.1, stop := m.2, entity_label := r.supported_entity, score := boosted })

/-- Modelled from the spec: the sort order used by overlap resolution, score
descending, then span length descending, then start ascending. -/
def candOrder (a b : Detection) : Prop :=
  b.score < a.score ∨
    (a.score = b.score ∧
      (spanLen b < spanLen a ∨ (spanLen a = spanLen b ∧ a.start ≤ b.start)))

instance : DecidableRel candOrder := fun a b => by
  unfold candOrder
  exact inferInstance

/-- Modelled from the spec: the greedy walk over the sorted candidate list,
accepting a candidate exactly when it does not overlap any already-accepted
one. -/
def greedyAccept : List Detection → List Detection → List Detection
  | acc, [] => acc
  | acc, c :: rest =>
    if acc.all (fun a => disjB a c) then greedyAccept (acc ++ [c]) rest
    else greedyAccept acc rest

/-- Modelled from the spec: overlap resolution over the candidate pool, and
the final sort of the accepted detections by start ascending. -/
def resolveOverlaps (pool : List Detection) : List Detection :=
  sortByStart (greedyAccept [] (List.insertionSort candOrder pool))

/-- Modelled from the spec: the pluggable statistical entity extractor
capability.  It succeeds exactly on its supported languages; analysis on an
unsupported language fails with an analysis error carrying the language and
the cause. -/
structure EntityExtractor where
  supported : List String
  extract : String → List Char → List Detection

/-- Modelled from the spec: the analyzer engine (presidio
AnalyzerEngine.analyze, not part of src/).  It pools the entity extractor's
candidates with every pattern recognizer's context-boosted candidates, then
resolves overlaps. -/
def analyze (ner : EntityExtractor) (recs : List PatternRecognizer)
    (text lang : String) (ctx : List String) : Except ScrubErr (List Detection) :=
  if lang ∈ ner.supported then
    .ok (resolveOverlaps
      (ner.extract lang text.toList ++
        recs.flatMap (fun r => runRecognizer r ctx text.toList)))
  else .error (.analysisError lang "unsupported language")

/-- The fixed context-hint list passed by scrubber in src/main.py.  Note the
adjacent Python string literals on the Actor lines concatenate into the
single element written here as the ninth entry. -/
def scrubContext : List String :=
  ["full name", "name", "postcode", "birth", "account", "address", "actor",
    "Actor Name", "Actor Name:Actor", "Message:"]

/-- The operator configuration of scrubber in src/main.py: a single DEFAULT
replace operator with the literal redaction marker. -/
def scrubOperators : List (String × Operator) :=
  [("DEFAULT", Operator.replace "<REDACTED>")]

/-- The scrubber function of src/main.py: analyze with the fixed context
hints, then anonymize with the DEFAULT replace operator. -/
def scrubber (ner : EntityExtractor) (recs : List PatternRecognizer)
    (transcript : String) (lang : String) : Except ScrubErr String := do
  let analyzer_results ← analyze ner recs transcript lang scrubContext
  anonymize transcript analyzer_results scrubOperators

/-- Request body of the scrub endpoint (src/main.py DataModel). -/
structure DataModel where
  transcript : String
  lang : String

/-- Outcome of an endpoint call as seen by the caller: a success envelope
with the scrubbed text, or an error envelope with a status and a detail. -/
inductive Response where
  | success (scrubbed_text : String)
  | failure (status : Nat) (detail : String)
deriving DecidableEq, Repr

/-- The detail string of the error envelope, as built in src/main.py from
the exception text. -/
def errDetail (e : ScrubErr) : String :=
  "Error processing text: " ++
    match e with
    | .analysisError lang cause => cause ++ ": " ++ lang
    | .overlapError => "overlapping detections"
    | .configError => "missing operator configuration"

/-- The scrub endpoint handler of src/main.py: it wraps scrubber, returning
the scrubbed text on success and a 500 error envelope on any exception. -/
def scrub_text (ner : EntityExtractor) (recs : List PatternRecognizer)
    (data : DataModel) : Response :=
  match scrubber ner recs data.transcript data.lang with
  | .ok s => .success s
  | .error e => .failure 500 (errDetail e)

/-- Python inequality of a string header value against the optional expected
key (src/main.py line 64): comparing a str against None is always unequal;
two strings compare by content. -/
def pyNe (s : String) (expected : Option String) : Bool :=
  match expected with
  | none => true
  | some k => s ≠ k

/-- The authentication dependency get_api_key of src/main.py: it rejects
with 403 Forbidden when the x-api-key header differs from the expected key
read from the environment at startup, and returns the key otherwise. -/
def get_api_key (expected : Option String) (x_api_key : String) :
    Except Nat String :=
  if pyNe x_api_key expected then .error 403 else .ok x_api_key

/-- A deterministic stub entity extractor supporting English and producing
no candidates (the spec's design notes call for testability with a stub). -/
def stubNer : EntityExtractor := { supported := ["en"], extract := fun _ _ => [] }

/-- Scanner for the non-overlapping six-digit runs of a text: the matcher of
the six-digit account-number rule used in the spec's context-boosting
example.  i is the offset of the head of the remaining list, and skip is the
number of positions still covered by the previous match. -/
def sixDigitScanFrom : Nat → Nat → List Char → List (Nat × Nat)
  | _, _, [] => []
  | i, skip + 1, _ :: rest => sixDigitScanFrom (i + 1) skip rest
  | i, 0, c :: rest =>
    if 5 ≤ rest.length && ((c :: rest).take 6).all Char.isDigit then
      (i, i + 6) :: sixDigitScanFrom (i + 1) 5 rest
    else
      sixDigitScanFrom (i + 1) 0 rest

/-- Non-overlapping six-digit matches of the whole text. -/
def sixDigitScan (cs : List Char) : List (Nat × Nat) := sixDigitScanFrom 0 0 cs

/-- The six-digit account-number recognizer of the spec's context-boosting
example: base confidence 0.4 (40 hundredths) and context keyword account. -/
def accountRec : PatternRecognizer :=
  { supported_entity := "ACCOUNT", matcher := sixDigitScan, score := 40,
    context := ["account"] }

/-- The same rule with no context keywords of its own, used to exercise the
caller-supplied context hints. -/
def accountRecNoCtx : PatternRecognizer :=
  { supported_entity := "ACCOUNT", matcher := sixDigitScan, score := 40,
    context := [] }

theorem greedyAccept_pairwise (l : List Detection) :
    ∀ acc, List.Pairwise DisjP acc → List.Pairwise DisjP (greedyAccept acc l) := by
  induction l with
  | nil => intro acc h; simpa [greedyAccept] using h
  | cons c rest ih =>
    intro acc h
    by_cases hc : acc.all (fun a => disjB a c) = true
    · rw [greedyAccept, if_pos hc]
      apply ih
      rw [List.pairwise_append]
      refine ⟨h, by simp, ?_⟩
      intro a ha b hb
      rw [List.mem_singleton] at hb
      subst hb
      have := (List.all_eq_true.mp hc) a ha
      simpa [disjB] using this
    · rw [greedyAccept, if_neg hc]
      exact ih acc h

theorem greedyAccept_sub (l : List Detection) :
    ∀ acc a, a ∈ acc → a ∈ greedyAccept acc l := by
  induction l with
  | nil => intro acc a ha; simpa [greedyAccept] using ha
  | cons c rest ih =>
    intro acc a ha
    by_cases hc : acc.all (fun x => disjB x c) = true
    · rw [greedyAccept, if_pos hc]
      exact ih _ a (by simp [ha])
    · rw [greedyAccept, if_neg hc]
      exact ih acc a ha

theorem greedyAccept_mem (l : List Detection) :
    ∀ acc a, a ∈ greedyAccept acc l → a ∈ acc ∨ a ∈ l := by
  induction l with
  | nil => intro acc a h; left; simpa [greedyAccept] using h
  | cons c rest ih =>
    intro acc a h
    by_cases hc : acc.all (fun x => disjB x c) = true
    · rw [greedyAccept, if_pos hc] at h
      rcases ih _ a h with h1 | h1
      · rcases List.mem_append.mp h1 with h2 | h2
        · exact Or.inl h2
        · rw [List.mem_singleton] at h2
          exact Or.inr (h2 ▸ List.mem_cons_self c rest)
      · exact Or.inr (List.mem_cons_of_mem c h1)
    · rw [greedyAccept, if_neg hc] at h
      rcases ih acc a h with h1 | h1
      · exact Or.inl h1
      · exact Or.inr (List.mem_cons_of_mem c h1)

theorem greedyAccept_max (l : List Detection) :
    ∀ acc c, c ∈ l →
      c ∈ greedyAccept acc l ∨ ∃ a ∈ greedyAccept acc l, ¬ DisjP a c := by
  induction l with
  | nil => intro acc c h; cases h
  | cons d rest ih =>
    intro acc c hc
    by_cases hd : acc.all (fun a => disjB a d) = true
    · rw [greedyAccept, if_pos hd]
      rcases List.mem_cons.mp hc with rfl | hmem
      · exact Or.inl (greedyAccept_sub rest _ c (by simp))
      · exact ih _ c hmem
    · rw [greedyAccept, if_neg hd]
      rcases List.mem_cons.mp hc with rfl | hmem
      · right
        have hex : ∃ a ∈ acc, ¬ (disjB a c = true) := by
          by_contra hall
          push_neg at hall
          exact hd (List.all_eq_true.mpr hall)
        obtain ⟨a, ha, hnd⟩ := hex
        exact ⟨a, greedyAccept_sub rest acc a ha, by simpa [disjB] using hnd⟩
      · exact ih acc c hmem

theorem resolveOverlaps_pairwise (pool : List Detection) :
    List.Pairwise DisjP (resolveOverlaps pool) := by
  have h1 : List.Pairwise DisjP (greedyAccept [] (List.insertionSort candOrder pool)) :=
    greedyAccept_pairwise _ [] (by simp)
  exact ((List.perm_insertionSort startLE _).pairwise_iff
    (fun h => disjP_symm h)).mpr h1

theorem resolveOverlaps_sub (pool : List Detection) :
    ∀ a ∈ resolveOverlaps pool, a ∈ pool := by
  intro a ha
  have ha2 : a ∈ greedyAccept [] (List.insertionSort candOrder pool) :=
    (List.perm_insertionSort startLE _).mem_iff.mp ha
  rcases greedyAccept_mem _ [] a ha2 with h | h
  · cases h
  · exact (List.perm_insertionSort candOrder pool).mem_iff.mp h

theorem resolveOverlaps_max (pool : List Detection) :
    ∀ c ∈ pool,
      c ∈ resolveOverlaps pool ∨ ∃ a ∈ resolveOverlaps pool, ¬ DisjP a c := by
  intro c hc
  have hc2 : c ∈ List.insertionSort candOrder pool :=
    (List.perm_insertionSort candOrder pool).mem_iff.mpr hc
  rcases greedyAccept_max _ [] c hc2 with h | ⟨a, ha, hov⟩
  · exact Or.inl ((List.perm_insertionSort startLE _).mem_iff.mpr h)
  · exact Or.inr ⟨a, (List.perm_insertionSort startLE _).mem_iff.mpr ha, hov⟩

theorem resolveOverlaps_sorted (pool : List Detection) :
    List.Sorted startLE (resolveOverlaps pool) :=
  List.sorted_insertionSort startLE _

theorem analyze_disjoint (ner : EntityExtractor) (recs : List PatternRecognizer)
    (text lang : String) (ctx : List String) (dets : List Detection)
    (h : analyze ner recs text lang ctx = .ok dets) :
    List.Pairwise DisjP dets := by
  unfold analyze at h
  by_cases hl : lang ∈ ner.supported
  · rw [if_pos hl] at h
    injection h with h2
    exact h2 ▸ resolveOverlaps_pairwise _
  · rw [if_neg hl] at h
    cases h

theorem lookupOperator_default (ops : List (String × Operator)) (op : Operator)
    (h : ops.lookup "DEFAULT" = some op) (label : String) :
    ∃ o, lookupOperator ops label = .ok o := by
  unfold lookupOperator
  cases hl : ops.lookup label with
  | some o => exact ⟨o, rfl⟩
  | none => rw [h]; exact ⟨op, rfl⟩

theorem rewriteFrom_ok (ops : List (String × Operator))
    (hop : ∀ label, ∃ o, lookupOperator ops label = .ok o) (cs : List Char) :
    ∀ dets pos, ∃ out, rewriteFrom ops cs pos dets = .ok out := by
  intro dets
  induction dets with
  | nil => intro pos; exact ⟨cs.drop pos, rfl⟩
  | cons d rest ih =>
    intro pos
    obtain ⟨o, ho⟩ := hop d.entity_label
    obtain ⟨out, hout⟩ := ih d.stop
    refine ⟨pySlice cs pos d.start ++ applyOperator o (pySlice cs d.start d.stop) ++ out, ?_⟩
    simp only [rewriteFrom]
    rw [ho, hout]
    rfl

theorem anonymize_ok_of_disjoint (text : String) (dets : List Detection)
    (ops : List (String × Operator)) (op : Operator)
    (hop : ops.lookup "DEFAULT" = some op) (hpw : List.Pairwise DisjP dets) :
    ∃ s, anonymize text dets ops = .ok s := by
  have hb : pairwiseDisjB dets = true := (pairwiseDisjB_iff dets).mpr hpw
  obtain ⟨out, hout⟩ :=
    rewriteFrom_ok ops (lookupOperator_default ops op hop) text.toList (sortByStart dets) 0
  refine ⟨String.mk out, ?_⟩
  unfold anonymize
  rw [if_pos hb, hout]
  rfl

theorem scrubber_ok_of_supported (ner : EntityExtractor)
    (recs : List PatternRecognizer) (t lang : String)
    (h : lang ∈ ner.supported) : ∃ s, scrubber ner recs t lang = .ok s := by
  have hana : analyze ner recs t lang scrubContext =
      .ok (resolveOverlaps
        (ner.extract lang t.toList ++
          recs.flatMap (fun r => runRecognizer r scrubContext t.toList))) := by
    unfold analyze
    rw [if_pos h]
  obtain ⟨s, hs⟩ := anonymize_ok_of_disjoint t
    (resolveOverlaps
      (ner.extract lang t.toList ++
        recs.flatMap (fun r => runRecognizer r scrubContext t.toList)))
    scrubOperators (Operator.replace "<REDACTED>") rfl (resolveOverlaps_pairwise _)
  refine ⟨s, ?_⟩
  unfold scrubber
  rw [hana]
  exact hs

theorem scrubber_unsupported (ner : EntityExtractor)
    (recs : List PatternRecognizer) (t lang : String)
    (h : lang ∉ ner.supported) :
    scrubber ner recs t lang = .error (.analysisError lang "unsupported language") := by
  unfold scrubber analyze
  rw [if_neg h]
  rfl

theorem scrub_text_failure_detail (ner : EntityExtractor)
    (recs : List PatternRecognizer) (t lang d : String)
    (h : scrub_text ner recs { transcript := t, lang := lang } = .failure 500 d) :
    d = errDetail (.analysisError lang "unsupported language") := by
  by_cases hl : lang ∈ ner.supported
  · obtain ⟨s, hs⟩ := scrubber_ok_of_supported ner recs t lang hl
    exfalso
    simp only [scrub_text] at h
    rw [hs] at h
    cases h
  · have he := scrubber_unsupported ner recs t lang hl
    simp only [scrub_text] at h
    rw [he] at h
    simp only [Response.failure.injEq] at h
    exact h.2.symm

/-- C1: for the text "My postcode is SW1A 1AA today" and a single detection
covering the postcode span at its correct offsets 15 to 23, anonymizing with
the replace operator and literal REDACTED marker as configured in scrubber
returns exactly "My postcode is REDACTED today" with the marker brackets:
verbatim text outside the detected span is preserved, and the offset
arithmetic is done against original-text positions even though the
replacement length differs from the span length. -/
theorem offset_correct_redaction :
    anonymize "My postcode is SW1A 1AA today"
      [{ start := 15, stop := 23, entity_label := "POSTCODE", score := 100 }]
      scrubOperators = .ok "My postcode is <REDACTED> today" := rfl

/-- C2: for every input text, language, context hints, entity extractor and
recognizer set, the detections returned by the analyzer have pairwise
disjoint spans. -/
theorem analyzer_results_disjoint (ner : EntityExtractor)
    (recs : List PatternRecognizer) (text lang : String) (ctx : List String)
    (dets : List Detection) (h : analyze ner recs text lang ctx = .ok dets) :
    List.Pairwise DisjP dets :=
  analyze_disjoint ner recs text lang ctx dets h

/-- Witness for the disjointness claim at a concrete analysis run. -/
theorem analyzer_results_disjoint_witness :
    List.Pairwise DisjP
      [{ start := 9, stop := 15, entity_label := "ACCOUNT", score := 75 }] :=
  analyzer_results_disjoint stubNer [accountRec] "account: 123456" "en" []
    [{ start := 9, stop := 15, entity_label := "ACCOUNT", score := 75 }] rfl

/-- C3: the scrubber function composes the analyzer followed by the
anonymizer, configures only a DEFAULT operator using the replace policy with
one constant redaction literal for every entity label, and always passes the
same fixed context-hint list regardless of the request's content. -/
theorem scrubber_composition (ner : EntityExtractor)
    (recs : List PatternRecognizer) (transcript lang : String) :
    scrubber ner recs transcript lang =
      (analyze ner recs transcript lang scrubContext).bind
        (fun dets => anonymize transcript dets scrubOperators)
    ∧ scrubOperators = [("DEFAULT", Operator.replace "<REDACTED>")]
    ∧ scrubContext =
        ["full name", "name", "postcode", "birth", "account", "address",
          "actor", "Actor Name", "Actor Name:Actor", "Message:"] :=
  ⟨rfl, rfl, rfl⟩

/-- C4: overlap resolution sorts all candidates by score descending, then
span length descending, then start ascending, walks the sorted list greedily
accepting a candidate exactly when it does not overlap any already-accepted
one, and returns the accepted detections sorted by start ascending: the
result is that pipeline definitionally, is sorted by start, comes from the
candidate pool, and every pool candidate is either returned or overlaps a
returned one. -/
theorem overlap_resolution_algorithm (pool : List Detection) :
    resolveOverlaps pool =
      sortByStart (greedyAccept [] (List.insertionSort candOrder pool))
    ∧ List.Sorted startLE (resolveOverlaps pool)
    ∧ (∀ a ∈ resolveOverlaps pool, a ∈ pool)
    ∧ (∀ c ∈ pool,
        c ∈ resolveOverlaps pool ∨ ∃ a ∈ resolveOverlaps pool, ¬ DisjP a c) :=
  ⟨rfl, resolveOverlaps_sorted pool, resolveOverlaps_sub pool,
    resolveOverlaps_max pool⟩

/-- Witness for the overlap-resolution claim at a concrete pool. -/
theorem overlap_resolution_algorithm_witness :
    ({ start := 0, stop := 3, entity_label := "A", score := 90 } : Detection) ∈
        resolveOverlaps [{ start := 0, stop := 3, entity_label := "A", score := 90 }] ∨
      ∃ a ∈ resolveOverlaps [{ start := 0, stop := 3, entity_label := "A", score := 90 }],
        ¬ DisjP a { start := 0, stop := 3, entity_label := "A", score := 90 } :=
  (overlap_resolution_algorithm
      [{ start := 0, stop := 3, entity_label := "A", score := 90 }]).2.2.2
    { start := 0, stop := 3, entity_label := "A", score := 90 }
    (List.mem_singleton.mpr rfl)

/-- C5: if the anonymizer is given a detection list containing two
detections whose spans overlap, it fails with the overlap error; the overlap
is always surfaced as an error and never silently coerced into a merged or
partial redaction. -/
theorem anonymize_overlap_error (text : String) (ops : List (String × Operator))
    (l1 l2 l3 : List Detection) (d1 d2 : Detection) (hov : ¬ DisjP d1 d2) :
    anonymize text (l1 ++ d1 :: (l2 ++ d2 :: l3)) ops = .error .overlapError := by
  have hsub : [d1, d2].Sublist (l1 ++ d1 :: (l2 ++ d2 :: l3)) := by
    have h2 : [d2].Sublist (l2 ++ d2 :: l3) :=
      List.singleton_sublist.mpr (by simp)
    exact (List.Sublist.cons₂ d1 h2).trans (List.sublist_append_right l1 _)
  cases hB : pairwiseDisjB (l1 ++ d1 :: (l2 ++ d2 :: l3)) with
  | true =>
    exfalso
    have hpw := (pairwiseDisjB_iff _).mp hB
    exact hov ((List.pairwise_cons.mp (List.Pairwise.sublist hsub hpw)).1 d2 (by simp))
  | false =>
    unfold anonymize
    rw [if_neg (by simp [hB])]

/-- Witness for the overlap-error claim at a concrete overlapping pair. -/
theorem anonymize_overlap_error_witness :
    anonymize "abcdef"
      [{ start := 0, stop := 3, entity_label := "A", score := 90 },
        { start := 2, stop := 5, entity_label := "B", score := 80 }]
      scrubOperators = .error .overlapError :=
  anonymize_overlap_error "abcdef" scrubOperators [] [] []
    { start := 0, stop := 3, entity_label := "A", score := 90 }
    { start := 2, stop := 5, entity_label := "B", score := 80 } (by decide)

/-- C6: the caller of the scrub endpoint receives either the complete
redacted text or a single descriptive 500 error, never a partially redacted
text; in particular a failure of the entity-extraction capability (an
unsupported language) fails the whole request. -/
theorem scrub_endpoint_complete_or_error (ner : EntityExtractor)
    (recs : List PatternRecognizer) (data : DataModel) :
    ((∃ s, scrub_text ner recs data = .success s ∧
        scrubber ner recs data.transcript data.lang = .ok s) ∨
      (∃ d, scrub_text ner recs data = .failure 500 d)) ∧
    (data.lang ∉ ner.supported →
      scrub_text ner recs data =
        .failure 500 (errDetail (.analysisError data.lang "unsupported language"))) := by
  constructor
  · cases hs : scrubber ner recs data.transcript data.lang with
    | ok s =>
      refine Or.inl ⟨s, ?_, rfl⟩
      simp [scrub_text, hs]
    | error e => exact Or.inr ⟨errDetail e, by simp [scrub_text, hs]⟩
  · intro hl
    have h2 := scrubber_unsupported ner recs data.transcript data.lang hl
    simp [scrub_text, h2]

/-- Witness for the all-or-nothing claim at a concrete unsupported-language
request. -/
theorem scrub_endpoint_complete_or_error_witness :
    scrub_text stubNer [] { transcript := "hello", lang := "fr" } =
      .failure 500 (errDetail (.analysisError "fr" "unsupported language")) :=
  (scrub_endpoint_complete_or_error stubNer []
    { transcript := "hello", lang := "fr" }).2 (by decide)

/-- C7: scrub is idempotent under the default replace operator: when a first
scrub succeeds and the scrubbed text matches no recognizer (its analysis
yields no detections), scrubbing the scrubbed text returns it unchanged. -/
theorem scrub_idempotent (ner : EntityExtractor) (recs : List PatternRecognizer)
    (t u lang : String)
    (_h1 : scrubber ner recs t lang = .ok u)
    (h2 : analyze ner recs u lang scrubContext = .ok []) :
    scrubber ner recs u lang = .ok u := by
  unfold scrubber
  rw [h2]
  rfl

/-- Witness for the idempotence claim: scrubbing an already-scrubbed text. -/
theorem scrub_idempotent_witness :
    scrubber stubNer [accountRec] "account: <REDACTED>" "en" =
      .ok "account: <REDACTED>" :=
  scrub_idempotent stubNer [accountRec] "account: 123456" "account: <REDACTED>"
    "en" rfl rfl

/-- C8: context boosting: with the six-digit account recognizer at base
confidence 0.4 (40 hundredths) and context keyword account, analyzing
"account: 123456" yields the digit span with score 75, strictly above the
base score and within the cap of 100 (that is, 1.0), while analyzing
"random: 123456" yields the unboosted base score 40 (no acceptance threshold
filters it); a caller-supplied context hint boosts a recognizer with no
context keywords of its own in the same way. -/
theorem context_boosting :
    (analyze stubNer [accountRec] "account: 123456" "en" [] =
        .ok [{ start := 9, stop := 15, entity_label := "ACCOUNT", score := 75 }]
      ∧ accountRec.score < 75 ∧ 75 ≤ 100)
    ∧ (analyze stubNer [accountRec] "random: 123456" "en" [] =
        .ok [{ start := 8, stop := 14, entity_label := "ACCOUNT", score := 40 }]
      ∧ accountRec.score = 40)
    ∧ analyze stubNer [accountRecNoCtx] "account: 123456" "en" ["account"] =
        .ok [{ start := 9, stop := 15, entity_label := "ACCOUNT", score := 75 }] :=
  ⟨⟨rfl, by decide, by decide⟩, ⟨rfl, rfl⟩, rfl⟩

/-- C9: the error detail produced by the scrub endpoint's failure path is
independent of the PII content of the transcript: two failing requests with
the same language produce the same detail string, so the error envelope
never carries the original unredacted input text. -/
theorem error_detail_transcript_independent (ner : EntityExtractor)
    (recs : List PatternRecognizer) (t1 t2 lang d1 d2 : String)
    (h1 : scrub_text ner recs { transcript := t1, lang := lang } = .failure 500 d1)
    (h2 : scrub_text ner recs { transcript := t2, lang := lang } = .failure 500 d2) :
    d1 = d2 := by
  rw [scrub_text_failure_detail ner recs t1 lang d1 h1,
    scrub_text_failure_detail ner recs t2 lang d2 h2]

/-- Witness for the leak-freedom claim at two concrete failing requests with
different transcripts. -/
theorem error_detail_transcript_independent_witness :
    errDetail (.analysisError "fr" "unsupported language") =
      "Error processing text: unsupported language: fr" :=
  error_detail_transcript_independent stubNer [] "My name is John Smith" "x" "fr"
    (errDetail (.analysisError "fr" "unsupported language"))
    "Error processing text: unsupported language: fr" rfl rfl

/-- C10: when the SCRUB_API_KEY environment variable is unset at startup the
expected key is absent, and every request supplying any string value in the
x-api-key header is rejected with 403 Forbidden by get_api_key, since a
string header value never equals the absent expected key. -/
theorem get_api_key_rejects_all_when_unset (x_api_key : String) :
    get_api_key none x_api_key = .error 403 := rfl
